import Mathlib

/-!
Shallow embedding of the lexer/builder core of the lib-ruby-parser
repository (Rust), restricted to the parts needed by the verified
properties below: heredoc dedenting, duplicate-argument and
duplicate-pattern-name checks, nth-reference construction, assignment
conversion (`assignable`, `op_assign`, `accessible`), the balanced-operator
ambiguity warning, and the magic-comment encoding dispatch.

Rust `usize` values are modelled as `Nat` (overflow is made explicit where
the source can overflow), byte strings as `List Nat`, `Result<T, ()>` as
`Except Unit T`, and methods that mutate the builder/lexer through interior
mutability as explicit state passing.
-/

/-- A source range, `src/source/range.rs` (half-open byte interval).
Only `begin`/`end` and `join` are needed here; `join` is
Modelled from the spec: a node's `expression_l` "spans all its constituent
ranges", so joining takes the smallest covering interval. -/
structure Range where
  rbegin : Nat
  rend : Nat
deriving Repr, DecidableEq

/-- Modelled from the spec: the covering join of two ranges. -/
def Range.join (lhs rhs : Range) : Range :=
  { rbegin := min lhs.rbegin rhs.rbegin, rend := max lhs.rend rhs.rend }

/-- Diagnostic levels, `error/level.rs` (not under `src/`); the spec fixes
the two levels Warning and Error. -/
inductive ErrorLevel
  | Warning
  | Error
deriving Repr, DecidableEq

/-- The diagnostic messages reachable from the embedded methods
(`DiagnosticMessage` in `error/message.rs`, not under `src/`); constructor
payloads follow the spec's diagnostic table. -/
inductive DiagnosticMessage
  | DynamicConstantAssignment
  | CantAssignToSelf
  | CantAssignToNil
  | CantAssignToTrue
  | CantAssignToFalse
  | CantAssignToFile
  | CantAssignToLine
  | CantAssignToEncoding
  | CantSetVariable (name : String)
  | CircularArgumentReference (name : String)
  | DuplicatedArgumentName
  | DuplicateVariableName
  | DuplicateKeyName
  | ReservedForNumparam (name : String)
  | CantAssignToNumparam (name : String)
  | NthRefIsTooBig (name : String)
  | AmbiguousOperator (operator : String) (interpreted_as : String)
deriving Repr, DecidableEq

/-- A diagnostic record: level, message, range (`error/diagnostic.rs`,
shape fixed by the spec's "Diagnostic record" section). -/
structure Diagnostic where
  level : ErrorLevel
  message : DiagnosticMessage
  range : Range
deriving Repr, DecidableEq

/-- `Diagnostics::emit` appends a diagnostic to the collected list. -/
def emitDiagnostic (diags : List Diagnostic) (d : Diagnostic) : List Diagnostic :=
  diags ++ [d]

/-!
## Heredoc dedenting (`Builder::dedent_string`, src/src/builder.rs:416)

`StringValue` (in the crate root, holding the decoded `bytes` of a string
literal) is modelled by its byte list.
-/

/-- `Builder::TAB_WIDTH` (src/src/builder.rs:414). -/
def TAB_WIDTH : Nat := 8

/-- The stripped-prefix length computed by the loop of
`Builder::dedent_string` (src/src/builder.rs:416): `col` is the running
column, the result is the final value of `i`.  A space advances `col` by
one; a tab advances it to `TAB_WIDTH * (col / TAB_WIDTH + 1)` unless that
value exceeds `TAB_WIDTH`, in which case the loop breaks; any other byte
breaks; the loop also stops once `col` reaches `width`. -/
def dedentCount (width : Nat) : List Nat → Nat → Nat
  | [], _ => 0
  | b :: rest, col =>
    if col < width then
      if b = 32 then
        1 + dedentCount width rest (col + 1)
      else if b = 9 then
        let n := TAB_WIDTH * (col / TAB_WIDTH + 1)
        if n > TAB_WIDTH then 0
        else 1 + dedentCount width rest n
      else 0
    else 0

/-- `Builder::dedent_string` (src/src/builder.rs:416): drop the computed
whitespace prefix from the string's bytes. -/
def dedent_string (s : List Nat) (width : Nat) : List Nat :=
  s.drop (dedentCount width s 0)

/-- Modelled from the spec: the dedent loop as the spec words it — "a tab
that would cross the dedent width aborts further stripping", i.e. the tab
branch compares the expanded column `n` against `width`, not against
`TAB_WIDTH`.  This is the comparison definition for claim C1. -/
def dedentCountSpec (width : Nat) : List Nat → Nat → Nat
  | [], _ => 0
  | b :: rest, col =>
    if col < width then
      if b = 32 then
        1 + dedentCountSpec width rest (col + 1)
      else if b = 9 then
        let n := TAB_WIDTH * (col / TAB_WIDTH + 1)
        if n > width then 0
        else 1 + dedentCountSpec width rest n
      else 0
    else 0

/-- Modelled from the spec: `dedent_string` with the spec's tab-crossing
rule. -/
def dedent_string_spec (s : List Nat) (width : Nat) : List Nat :=
  s.drop (dedentCountSpec width s 0)


/-!
## The AST node variants reachable from the embedded builder methods

The builder's `Node` is a tagged variant over boxed payload structs (crate
root `node.rs` plus `nodes/`); only the payload fields the embedded methods
read or build are listed, with the source's field names and order.
`StringValue` payloads are byte lists.  The formal-argument variants
(`Arg` .. `Kwnilarg`), which only the duplicate-argument check touches,
are factored into their own fragment type `ArgNode` further below.
-/

inductive Node
  | Str (value : List Nat) (begin_l : Option Range) (end_l : Option Range) (expression_l : Range)
  | Begin (statements : List Node) (begin_l : Option Range) (end_l : Option Range) (expression_l : Range)
  | Heredoc (parts : List Node) (heredoc_body_l : Range) (heredoc_end_l : Range) (expression_l : Range)
  | XHeredoc (parts : List Node) (heredoc_body_l : Range) (heredoc_end_l : Range) (expression_l : Range)
  | Lvar (name : String) (expression_l : Range)
  | Ivar (name : String) (expression_l : Range)
  | Gvar (name : String) (expression_l : Range)
  | Cvar (name : String) (expression_l : Range)
  | Const (scope : Option Node) (name : String) (double_colon_l : Option Range) (name_l : Range) (expression_l : Range)
  | Self_ (expression_l : Range)
  | Nil (expression_l : Range)
  | True (expression_l : Range)
  | False (expression_l : Range)
  | File (expression_l : Range)
  | Line (expression_l : Range)
  | Encoding (expression_l : Range)
  | BackRef (name : String) (expression_l : Range)
  | NthRef (name : String) (expression_l : Range)
  | Lvasgn (name : String) (value : Option Node) (name_l : Range) (expression_l : Range) (operator_l : Option Range)
  | Ivasgn (name : String) (value : Option Node) (name_l : Range) (expression_l : Range) (operator_l : Option Range)
  | Gvasgn (name : String) (value : Option Node) (name_l : Range) (expression_l : Range) (operator_l : Option Range)
  | Cvasgn (name : String) (value : Option Node) (name_l : Range) (expression_l : Range) (operator_l : Option Range)
  | Casgn (scope : Option Node) (name : String) (value : Option Node) (name_l : Range) (double_colon_l : Option Range) (expression_l : Range) (operator_l : Option Range)
  | Send (recv : Option Node) (method_name : String) (args : List Node) (dot_l : Option Range) (selector_l : Option Range) (begin_l : Option Range) (end_l : Option Range) (operator_l : Option Range) (expression_l : Range)
  | CSend (recv : Option Node) (method_name : String) (args : List Node) (dot_l : Option Range) (selector_l : Option Range) (begin_l : Option Range) (end_l : Option Range) (operator_l : Option Range) (expression_l : Range)
  | Index (recv : Node) (indexes : List Node) (begin_l : Range) (end_l : Range) (expression_l : Range)
  | IndexAsgn (recv : Node) (indexes : List Node) (value : Option Node) (begin_l : Range) (end_l : Range) (expression_l : Range) (operator_l : Option Range)
  | AndAsgn (recv : Node) (value : Node) (operator_l : Range) (expression_l : Range)
  | OrAsgn (recv : Node) (value : Node) (operator_l : Range) (expression_l : Range)
  | OpAsgn (recv : Node) (value : Node) (operator : String) (operator_l : Range) (expression_l : Range)
deriving Repr

/-- `Node::expression` — every variant's covering range `expression_l`. -/
def Node.expression : Node → Range
  | Node.Str _ _ _ l => l
  | Node.Begin _ _ _ l => l
  | Node.Heredoc _ _ _ l => l
  | Node.XHeredoc _ _ _ l => l
  | Node.Lvar _ l => l
  | Node.Ivar _ l => l
  | Node.Gvar _ l => l
  | Node.Cvar _ l => l
  | Node.Const _ _ _ _ l => l
  | Node.Self_ l => l
  | Node.Nil l => l
  | Node.True l => l
  | Node.False l => l
  | Node.File l => l
  | Node.Line l => l
  | Node.Encoding l => l
  | Node.BackRef _ l => l
  | Node.NthRef _ l => l
  | Node.Lvasgn _ _ _ l _ => l
  | Node.Ivasgn _ _ _ l _ => l
  | Node.Gvasgn _ _ _ l _ => l
  | Node.Cvasgn _ _ _ l _ => l
  | Node.Casgn _ _ _ _ _ l _ => l
  | Node.Send _ _ _ _ _ _ _ _ l => l
  | Node.CSend _ _ _ _ _ _ _ _ l => l
  | Node.Index _ _ _ _ l => l
  | Node.IndexAsgn _ _ _ _ _ l _ => l
  | Node.AndAsgn _ _ _ l => l
  | Node.OrAsgn _ _ _ l => l
  | Node.OpAsgn _ _ _ _ l => l

/-!
## Builder state

`Builder` owns scope handles (src/src/builder.rs:58).  `StaticEnvironment`
is src/src/static_environment.rs (its `HashSet` of names is modelled as a
duplicate-free list via `List.insert`).  The remaining handles are not
under `src/`; they are Modelled from the spec: `current_arg_stack` is kept
as its `top()`, `pattern_variables`/`pattern_hash_keys` as the declared
names of the current frame, `context` and `max_numparam_stack` as the two
boolean queries the embedded methods make.
-/

structure StaticEnvironment where
  vars : List String
  stack : List (List String)
deriving Repr, DecidableEq

/-- `StaticEnvironment::declare` (src/src/static_environment.rs): insert
into the set of known names. -/
def StaticEnvironment.declare (env : StaticEnvironment) (name : String) : StaticEnvironment :=
  { env with vars := env.vars.insert name }

/-- `StaticEnvironment::is_declared` (src/src/static_environment.rs). -/
def StaticEnvironment.is_declared (env : StaticEnvironment) (name : String) : Bool :=
  env.vars.contains name

structure Builder where
  static_env : StaticEnvironment
  current_arg_stack : Option String
  in_dynamic_block : Bool
  dynamic_const_definition_allowed : Bool
  has_numparams : Bool
  pattern_variables : List String
  pattern_hash_keys : List String
  diagnostics : List Diagnostic
deriving Repr, DecidableEq

/-- `Builder::error` (src/src/builder.rs:3527): emit an Error-level
diagnostic. -/
def Builder.error (b : Builder) (message : DiagnosticMessage) (range : Range) : Builder :=
  { b with diagnostics := emitDiagnostic b.diagnostics (Diagnostic.mk ErrorLevel.Error message range) }

/-- `Builder::warn` (src/src/builder.rs:3532): emit a Warning-level
diagnostic. -/
def Builder.warn (b : Builder) (message : DiagnosticMessage) (range : Range) : Builder :=
  { b with diagnostics := emitDiagnostic b.diagnostics (Diagnostic.mk ErrorLevel.Warning message range) }

/-!
## `Builder::heredoc_dedent` (src/src/builder.rs:382)

`dedent_level` is an `i32`; converting a negative level to `usize` panics
(`expect("dedent_level must be positive")`), and an unsupported heredoc
child or node also panics (`unreachable!`); panics are modelled as `none`.
-/

/-- The `dedent_heredoc_parts` closure of `Builder::heredoc_dedent`:
dedent every `Str` part in place, leave `Begin` parts alone, panic on
anything else. -/
def dedent_heredoc_parts (width : Nat) : List Node → Option (List Node)
  | [] => some []
  | part :: rest =>
    match part with
    | Node.Str v bl el l =>
      (dedent_heredoc_parts width rest).map
        (fun r => Node.Str (dedent_string v width) bl el l :: r)
    | Node.Begin sts bl el l =>
      (dedent_heredoc_parts width rest).map (fun r => Node.Begin sts bl el l :: r)
    | _ => none

/-- `Builder::heredoc_dedent` (src/src/builder.rs:382). -/
def heredoc_dedent (node : Node) (dedent_level : Int) : Option Node :=
  if dedent_level = 0 then some node
  else if dedent_level < 0 then none
  else
    match node with
    | Node.Heredoc parts hb he l =>
      (dedent_heredoc_parts dedent_level.toNat parts).map
        (fun ps => Node.Heredoc ps hb he l)
    | Node.XHeredoc parts hb he l =>
      (dedent_heredoc_parts dedent_level.toNat parts).map
        (fun ps => Node.XHeredoc ps hb he l)
    | _ => none

/-!
## Duplicate pattern names (src/src/builder.rs:3345, 3363)
-/

/-- Rust `str::starts_with('_')`: the first character is an underscore. -/
def startsWithUnderscore (name : String) : Bool :=
  name.data.take 1 == ['_']

/-- `Builder::check_duplicate_pattern_variable` (src/src/builder.rs:3345):
underscore-prefixed names are skipped; a redeclared name emits
`DuplicateVariableName` and fails; otherwise the name is declared. -/
def check_duplicate_pattern_variable (b : Builder) (name : String) (loc : Range) :
    Except Unit Unit × Builder :=
  if startsWithUnderscore name then (Except.ok (), b)
  else if b.pattern_variables.contains name then
    (Except.error (), b.error DiagnosticMessage.DuplicateVariableName loc)
  else (Except.ok (), { b with pattern_variables := b.pattern_variables.insert name })

/-- `Builder::check_duplicate_pattern_key` (src/src/builder.rs:3363): a
redeclared key emits `DuplicateKeyName` and fails; otherwise the key is
declared.  Note there is no underscore skip here. -/
def check_duplicate_pattern_key (b : Builder) (name : String) (loc : Range) :
    Except Unit Unit × Builder :=
  if b.pattern_hash_keys.contains name then
    (Except.error (), b.error DiagnosticMessage.DuplicateKeyName loc)
  else (Except.ok (), { b with pattern_hash_keys := b.pattern_hash_keys.insert name })

/-!
## Tokens and `Builder::nth_ref` (src/src/builder.rs:787)
-/

/-- Modelled from the spec: a token carries a kind, a value and a range;
only the value (already converted to a string, as by
`Token::into_string_lossy`) and the range are used here. -/
structure Token where
  token_value : String
  loc : Range
deriving Repr, DecidableEq

/-- `value(token)` (src/src/builder.rs:3605). -/
def value (token : Token) : String := token.token_value

/-- `Builder::loc` (src/src/builder.rs:3476). -/
def tokenLoc (token : Token) : Range := Range.mk token.loc.rbegin token.loc.rend

/-- Largest `usize` value (the build targets a 64-bit machine). -/
def USIZE_MAX : Nat := 2 ^ 64 - 1

/-- The numeric value of a digit sequence, most significant digit first. -/
def digitsVal (l : List Char) : Nat :=
  l.foldl (fun n c => n * 10 + (c.toNat - 48)) 0

/-- Rust `str::parse::<usize>` restricted to the inputs that occur here
(the lexer only passes digit sequences after the `$` sigil): succeeds on a
nonempty all-digit string whose value fits in `usize`. -/
def parseUsize (s : String) : Option Nat :=
  if s.data ≠ [] ∧ s.data.all Char.isDigit then
    if digitsVal s.data ≤ USIZE_MAX then some (digitsVal s.data) else none
  else none

/-- `Builder::MAX_NTH_REF` (src/src/builder.rs:787): thirty one-bits,
`2 ^ 30 - 1`. -/
def MAX_NTH_REF : Nat := 0b111111111111111111111111111111

/-- `Builder::nth_ref` (src/src/builder.rs:789): drop the `$` sigil, parse
the rest as `usize`; warn `NthRefIsTooBig` when parsing fails or the value
exceeds `MAX_NTH_REF`; always return the `NthRef` node. -/
def nth_ref (b : Builder) (token : Token) : Node × Builder :=
  let expression_l := tokenLoc token
  let name := String.mk ((value token).data.drop 1)
  let parsed := parseUsize name
  let warnTooBig :=
    match parsed with
    | none => true
    | some n => decide (n > MAX_NTH_REF)
  let b :=
    if warnTooBig then b.warn (DiagnosticMessage.NthRefIsTooBig name) expression_l
    else b
  (Node.NthRef name expression_l, b)

/-!
## `Builder::accessible` (src/src/builder.rs:803)
-/

/-- `Builder::accessible` (src/src/builder.rs:803): a declared `Lvar` stays
an `Lvar` (with a `CircularArgumentReference` error when it names the
current argument); an undeclared one becomes a receiverless zero-argument
`Send`; everything else passes through. -/
def accessible (b : Builder) (node : Node) : Node × Builder :=
  match node with
  | Node.Lvar name expression_l =>
    if b.static_env.is_declared name then
      let b :=
        match b.current_arg_stack with
        | some current_arg =>
          if current_arg = name then
            b.error (DiagnosticMessage.CircularArgumentReference name) expression_l
          else b
        | none => b
      (Node.Lvar name expression_l, b)
    else
      (Node.Send none name [] none (some expression_l) none none none expression_l, b)
  | _ => (node, b)

/-!
## `Builder::assignable` (src/src/builder.rs:891) and the numparam checks
-/

/-- The `matches!(name, "_1" | ... | "_9")` test shared by both numparam
checks (src/src/builder.rs:3293, 3309). -/
def is_numparam_name (name : String) : Bool :=
  name == "_1" || name == "_2" || name == "_3" || name == "_4" || name == "_5" ||
  name == "_6" || name == "_7" || name == "_8" || name == "_9"

/-- `Builder::check_assignment_to_numparam` (src/src/builder.rs:3290). -/
def check_assignment_to_numparam (b : Builder) (name : String) (loc : Range) :
    Except Unit Unit × Builder :=
  let assigning_to_numparam :=
    b.in_dynamic_block && is_numparam_name name && b.has_numparams
  if assigning_to_numparam then
    (Except.error (), b.error (DiagnosticMessage.CantAssignToNumparam name) loc)
  else (Except.ok (), b)

/-- `Builder::check_reserved_for_numparam` (src/src/builder.rs:3308). -/
def check_reserved_for_numparam (b : Builder) (name : String) (loc : Range) :
    Except Unit Unit × Builder :=
  if is_numparam_name name then
    (Except.error (), b.error (DiagnosticMessage.ReservedForNumparam name) loc)
  else (Except.ok (), b)

/-- `Builder::assignable` (src/src/builder.rs:891).  The `unreachable!` on
non-assignable variants is modelled as a plain error sentinel (those
variants are never passed by the grammar). -/
def assignable (b : Builder) (node : Node) : Except Unit Node × Builder :=
  match node with
  | Node.Cvar name expression_l =>
    (Except.ok (Node.Cvasgn name none expression_l expression_l none), b)
  | Node.Ivar name expression_l =>
    (Except.ok (Node.Ivasgn name none expression_l expression_l none), b)
  | Node.Gvar name expression_l =>
    (Except.ok (Node.Gvasgn name none expression_l expression_l none), b)
  | Node.Const scope name double_colon_l name_l expression_l =>
    if !b.dynamic_const_definition_allowed then
      (Except.error (), b.error DiagnosticMessage.DynamicConstantAssignment expression_l)
    else
      (Except.ok (Node.Casgn scope name none name_l double_colon_l expression_l none), b)
  | Node.Lvar name expression_l =>
    match check_assignment_to_numparam b name expression_l with
    | (Except.error _, b) => (Except.error (), b)
    | (Except.ok _, b) =>
      match check_reserved_for_numparam b name expression_l with
      | (Except.error _, b) => (Except.error (), b)
      | (Except.ok _, b) =>
        let b := { b with static_env := b.static_env.declare name }
        (Except.ok (Node.Lvasgn name none expression_l expression_l none), b)
  | Node.Self_ expression_l =>
    (Except.error (), b.error DiagnosticMessage.CantAssignToSelf expression_l)
  | Node.Nil expression_l =>
    (Except.error (), b.error DiagnosticMessage.CantAssignToNil expression_l)
  | Node.True expression_l =>
    (Except.error (), b.error DiagnosticMessage.CantAssignToTrue expression_l)
  | Node.False expression_l =>
    (Except.error (), b.error DiagnosticMessage.CantAssignToFalse expression_l)
  | Node.File expression_l =>
    (Except.error (), b.error DiagnosticMessage.CantAssignToFile expression_l)
  | Node.Line expression_l =>
    (Except.error (), b.error DiagnosticMessage.CantAssignToLine expression_l)
  | Node.Encoding expression_l =>
    (Except.error (), b.error DiagnosticMessage.CantAssignToEncoding expression_l)
  | Node.BackRef name expression_l =>
    (Except.error (), b.error (DiagnosticMessage.CantSetVariable name) expression_l)
  | Node.NthRef name expression_l =>
    (Except.error (), b.error (DiagnosticMessage.CantSetVariable ("$" ++ name)) expression_l)
  | _ => (Except.error (), b)

/-!
## `Builder::op_assign` (src/src/builder.rs:1098)
-/

/-- Rust `String::pop`: remove the last character. -/
def strPop (s : String) : String := String.mk s.data.dropLast

/-- `join_exprs` (src/src/builder.rs:3617). -/
def join_exprs (lhs rhs : Node) : Range := lhs.expression.join rhs.expression

/-- `Builder::op_assign` (src/src/builder.rs:1098): trim the trailing
character of the operator token, convert an `Index` lhs to `IndexAsgn`,
reject back/nth references, then build `AndAsgn`/`OrAsgn`/`OpAsgn` by the
trimmed operator.  The `unreachable!` on other lhs forms is modelled as a
plain error sentinel. -/
def op_assign (b : Builder) (lhs : Node) (op_t : Token) (rhs : Node) :
    Except Unit Node × Builder :=
  let operator_l := tokenLoc op_t
  let operator := strPop (value op_t)
  let expression_l := join_exprs lhs rhs
  let build : Node → Except Unit Node × Builder := fun recv =>
    let result :=
      if operator = "&&" then Node.AndAsgn recv rhs operator_l expression_l
      else if operator = "||" then Node.OrAsgn recv rhs operator_l expression_l
      else Node.OpAsgn recv rhs operator operator_l expression_l
    (Except.ok result, b)
  match lhs with
  | Node.Gvasgn _ _ _ _ _ => build lhs
  | Node.Ivasgn _ _ _ _ _ => build lhs
  | Node.Lvasgn _ _ _ _ _ => build lhs
  | Node.Cvasgn _ _ _ _ _ => build lhs
  | Node.Casgn _ _ _ _ _ _ _ => build lhs
  | Node.Send _ _ _ _ _ _ _ _ _ => build lhs
  | Node.CSend _ _ _ _ _ _ _ _ _ => build lhs
  | Node.Index recv indexes begin_l end_l iexpr =>
    build (Node.IndexAsgn recv indexes none begin_l end_l iexpr none)
  | Node.BackRef name bexpr =>
    (Except.error (), b.error (DiagnosticMessage.CantSetVariable name) bexpr)
  | Node.NthRef name nexpr =>
    (Except.error (), b.error (DiagnosticMessage.CantSetVariable ("$" ++ name)) nexpr)
  | _ => (Except.error (), b)

/-- The lhs forms `op_assign` passes through unconverted (the first seven
arms of its match). -/
def isOpAssignSimpleLhs : Node → Bool
  | Node.Gvasgn _ _ _ _ _ => true
  | Node.Ivasgn _ _ _ _ _ => true
  | Node.Lvasgn _ _ _ _ _ => true
  | Node.Cvasgn _ _ _ _ _ => true
  | Node.Casgn _ _ _ _ _ _ _ => true
  | Node.Send _ _ _ _ _ _ _ _ _ => true
  | Node.CSend _ _ _ _ _ _ _ _ _ => true
  | _ => false

/-!
## `Lexer::warn_balanced` (src/src/lexer/main.rs:1064)

The lex-state bitset and the lookahead byte wrapper live outside `src/`.
-/

/-- Modelled from the spec: the `EXPR_*` lex-state bits, one bit per name
in the spec's listing order. -/
def EXPR_BEG : Nat := 1
def EXPR_END : Nat := 2
def EXPR_ENDARG : Nat := 4
def EXPR_ENDFN : Nat := 8
def EXPR_ARG : Nat := 16
def EXPR_CMDARG : Nat := 32
def EXPR_MID : Nat := 64
def EXPR_FNAME : Nat := 128
def EXPR_DOT : Nat := 256
def EXPR_CLASS : Nat := 512
def EXPR_LABEL : Nat := 1024
def EXPR_LABELED : Nat := 2048
def EXPR_FITEM : Nat := 4096

/-- Modelled from the spec: `LexState::is_some(states)` — the bitset meets
at least one of the given bits. -/
def lex_state_is_some (st states : Nat) : Bool := st &&& states != 0

/-- Modelled from the spec: the lookahead (`MaybeByte`) is a byte or
end-of-input; `is_space` holds on ASCII whitespace bytes. -/
def maybe_byte_is_space : Option Nat → Bool
  | some byte => byte == 32 || (9 ≤ byte && byte ≤ 13)
  | none => false

/-- The lexer state touched by `warn_balanced`: its diagnostics list and
the range of the token being built (`Lexer::current_range`, kept as a
field here). -/
structure Lexer where
  diagnostics : List Diagnostic
  current_range : Range
deriving Repr, DecidableEq

/-- `Lexer::warn` (src/src/lexer/main.rs:1056): emit a Warning-level
diagnostic. -/
def Lexer.warn (lx : Lexer) (message : DiagnosticMessage) (range : Range) : Lexer :=
  { lx with diagnostics := emitDiagnostic lx.diagnostics (Diagnostic.mk ErrorLevel.Warning message range) }

/-- `Lexer::warn_balanced` (src/src/lexer/main.rs:1064). -/
def warn_balanced (lx : Lexer) (token_type : Int) (op syn : String)
    (c : Option Nat) (space_seen : Bool) (last_state : Nat) : Int × Lexer :=
  let lx :=
    if !lex_state_is_some last_state (EXPR_CLASS ||| EXPR_DOT ||| EXPR_FNAME ||| EXPR_ENDFN) &&
        (space_seen && !maybe_byte_is_space c) then
      lx.warn (DiagnosticMessage.AmbiguousOperator op syn) lx.current_range
    else lx
  (token_type, lx)

/-!
## `decode` (src/src/source/decoder.rs:76)
-/

/-- `InputError` (src/src/source/decoder.rs:24); the constructor name
`UnsupportdEncoding` keeps the source's spelling. -/
inductive InputError
  | UnableToRecognizeEncoding
  | UnsupportdEncoding (name : String)
  | UnknownEncoding
  | EncodingError (description : String)
deriving Repr, DecidableEq

/-- Rust `str::to_uppercase` (std library), on the character data. -/
def strToUpper (s : String) : String := String.mk (s.data.map Char.toUpper)

/-- `decode` (src/src/source/decoder.rs:76): dispatch on the uppercased
encoding name.  The codec decoders of the external `encoding` crate (with
`DecoderTrap::Ignore`) and the std lossy UTF-8 conversion are external
library code, passed in as parameters. -/
def decode (utf8_decode koi8r_decode : List Nat → Except String String)
    (from_utf8_lossy : List Nat → String)
    (input : List Nat) (enc : String) : Except InputError String :=
  let up := strToUpper enc
  if up = "ASCII-8BIT" ∨ up = "BINARY" then Except.ok (from_utf8_lossy input)
  else if up = "UTF-8" then (utf8_decode input).mapError InputError.EncodingError
  else if up = "KOI8-R" then (koi8r_decode input).mapError InputError.EncodingError
  else Except.error (InputError.UnsupportdEncoding enc)

/-!
## Duplicate argument names (src/src/builder.rs:3201, 3321)

The nodes that can occur in a formal-argument list (the domain of
`check_duplicate_args`; anything else hits an `unreachable!` in the
source) form their own fragment of `Node`, kept as a dedicated type with
the same constructor payloads.  The `HashMap<String, &Node>` is modelled
as an association list with front insertion and first-match lookup.
-/

inductive ArgNode
  | Arg (name : String) (expression_l : Range)
  | Optarg (name : String) (name_l : Range) (expression_l : Range)
  | Restarg (name : Option String) (name_l : Option Range) (expression_l : Range)
  | Kwarg (name : String) (name_l : Range) (expression_l : Range)
  | Kwoptarg (name : String) (name_l : Range) (expression_l : Range)
  | Kwrestarg (name : Option String) (name_l : Option Range) (expression_l : Range)
  | Shadowarg (name : String) (expression_l : Range)
  | Blockarg (name : String) (name_l : Range) (expression_l : Range)
  | Mlhs (items : List ArgNode) (begin_l : Option Range) (end_l : Option Range) (expression_l : Range)
  | Procarg0 (args : List ArgNode) (begin_l : Option Range) (end_l : Option Range) (expression_l : Range)
  | ForwardArg (expression_l : Range)
  | Kwnilarg (expression_l : Range)
deriving Repr

/-- `Builder::arg_name` (src/src/builder.rs:3230): the name of a named
formal argument; `Restarg`/`Kwrestarg` may be anonymous;
`Mlhs`/`Procarg0`/`ForwardArg`/`Kwnilarg` never reach it in the source
(`unreachable!`), modelled as anonymous. -/
def arg_name : ArgNode → Option String
  | ArgNode.Arg name _ => some name
  | ArgNode.Optarg name _ _ => some name
  | ArgNode.Kwarg name _ _ => some name
  | ArgNode.Kwoptarg name _ _ => some name
  | ArgNode.Shadowarg name _ => some name
  | ArgNode.Blockarg name _ _ => some name
  | ArgNode.Restarg name _ _ => name
  | ArgNode.Kwrestarg name _ _ => name
  | _ => none

/-- `Builder::arg_name_loc` (src/src/builder.rs:3244): where a duplicate
diagnostic points; the variants not named by `arg_name` never reach it. -/
def arg_name_loc : ArgNode → Range
  | ArgNode.Arg _ l => l
  | ArgNode.Optarg _ name_l _ => name_l
  | ArgNode.Kwarg _ name_l _ => name_l
  | ArgNode.Kwoptarg _ name_l _ => name_l
  | ArgNode.Shadowarg _ l => l
  | ArgNode.Blockarg _ name_l _ => name_l
  | ArgNode.Restarg _ name_l l => name_l.getD l
  | ArgNode.Kwrestarg _ name_l l => name_l.getD l
  | ArgNode.Mlhs _ _ _ l => l
  | ArgNode.Procarg0 _ _ _ l => l
  | ArgNode.ForwardArg l => l
  | ArgNode.Kwnilarg l => l

/-- `Builder::arg_name_collides` (src/src/builder.rs:3321): the first byte
of `this_name` is not an underscore and the names are equal. -/
def arg_name_collides (this_name that_name : String) : Bool :=
  !(this_name.data.take 1 == ['_']) && this_name == that_name

/-- `Builder::check_duplicate_arg` (src/src/builder.rs:3260): skip an
anonymous argument; record a fresh name in the map; emit
`DuplicatedArgumentName` when the name is found and collides. -/
def check_duplicate_arg (this_arg : ArgNode) (map : List (String × ArgNode))
    (diags : List Diagnostic) : List (String × ArgNode) × List Diagnostic :=
  match arg_name this_arg with
  | none => (map, diags)
  | some this_name =>
    match map.lookup this_name with
    | none => ((this_name, this_arg) :: map, diags)
    | some that_arg =>
      match arg_name that_arg with
      | none => (map, diags)
      | some that_name =>
        if arg_name_collides this_name that_name then
          (map,
           emitDiagnostic diags
             (Diagnostic.mk ErrorLevel.Error DiagnosticMessage.DuplicatedArgumentName
               (arg_name_loc this_arg)))
        else (map, diags)

/-- `Builder::check_duplicate_args` (src/src/builder.rs:3201): fold the
argument list through `check_duplicate_arg`, descending into `Mlhs` items
and `Procarg0` args; `ForwardArg`/`Kwnilarg` are skipped. -/
def check_duplicate_args (args : List ArgNode) (map : List (String × ArgNode))
    (diags : List Diagnostic) : List (String × ArgNode) × List Diagnostic :=
  match args with
  | [] => (map, diags)
  | arg :: rest =>
    let step :=
      match arg with
      | ArgNode.Arg _ _ => check_duplicate_arg arg map diags
      | ArgNode.Optarg _ _ _ => check_duplicate_arg arg map diags
      | ArgNode.Restarg _ _ _ => check_duplicate_arg arg map diags
      | ArgNode.Kwarg _ _ _ => check_duplicate_arg arg map diags
      | ArgNode.Kwoptarg _ _ _ => check_duplicate_arg arg map diags
      | ArgNode.Kwrestarg _ _ _ => check_duplicate_arg arg map diags
      | ArgNode.Shadowarg _ _ => check_duplicate_arg arg map diags
      | ArgNode.Blockarg _ _ _ => check_duplicate_arg arg map diags
      | ArgNode.Mlhs items _ _ _ => check_duplicate_args items map diags
      | ArgNode.Procarg0 pargs _ _ _ => check_duplicate_args pargs map diags
      | ArgNode.ForwardArg _ => (map, diags)
      | ArgNode.Kwnilarg _ => (map, diags)
    check_duplicate_args rest step.1 step.2

/-- One step of the claim's reading of the duplicate-argument walk: a
named argument emits `DuplicatedArgumentName` exactly when its name
repeats an earlier name (a member of `seen`) under `arg_name_collides`,
and otherwise folds its name into `seen`; anonymous arguments do
nothing. -/
def specArgStep (arg : ArgNode) (seen : List String) :
    List Diagnostic × List String :=
  match arg_name arg with
  | none => ([], seen)
  | some n =>
    if seen.any (fun m => arg_name_collides n m) then
      ([Diagnostic.mk ErrorLevel.Error DiagnosticMessage.DuplicatedArgumentName
          (arg_name_loc arg)], seen)
    else if seen.contains n then ([], seen)
    else ([], n :: seen)

/-- The claim's reading of the duplicate-argument walk: descend through
`Mlhs` and `Procarg0`, fold named-argument names into the set `seen`, and
emit `DuplicatedArgumentName` at a named argument exactly when its name
repeats an earlier name under `arg_name_collides`.  This is the
comparison definition for claim C3. -/
def specDupWalk (args : List ArgNode) (seen : List String) :
    List Diagnostic × List String :=
  match args with
  | [] => ([], seen)
  | arg :: rest =>
    let step : List Diagnostic × List String :=
      match arg with
      | ArgNode.Mlhs items _ _ _ => specDupWalk items seen
      | ArgNode.Procarg0 pargs _ _ _ => specDupWalk pargs seen
      | _ => specArgStep arg seen
    let tail := specDupWalk rest step.2
    (step.1 ++ tail.1, tail.2)

/-!
## Theorems
-/

/-- C1: the tab branch of `dedent_string` is required to abort stripping
exactly when the expanded column crosses the dedent width `w`.  The code
instead compares the expanded column against `TAB_WIDTH = 8`.  On the
string piece `"\tabc"` (bytes `[9, 97, 98, 99]`) with dedent width `4`,
the expanded column of the tab is `8`, which crosses the width `4`, so by
the claim the tab must not be stripped; the code strips it (because
`8 > 8` is false) and returns `"abc"`, while the spec-faithful definition
returns the piece unchanged. -/
theorem C1_dedent_tab_crossing_bug :
    dedent_string [9, 97, 98, 99] 4 = [97, 98, 99] ∧
    dedent_string_spec [9, 97, 98, 99] 4 = [9, 97, 98, 99] := by
  constructor <;> rfl

/-- C2 counterexample: the name `_a` begins with an underscore and is
already declared in `pattern_hash_keys`, yet `check_duplicate_pattern_key`
emits `DuplicateKeyName` and returns an error — it does not skip
underscore-prefixed names as claimed. -/
theorem C2_underscore_key_not_skipped :
    startsWithUnderscore "_a" = true ∧
    check_duplicate_pattern_key
        (Builder.mk (StaticEnvironment.mk [] []) none false false false [] ["_a"] [])
        "_a" (Range.mk 0 2) =
      (Except.error (),
       Builder.mk (StaticEnvironment.mk [] []) none false false false [] ["_a"]
         [Diagnostic.mk ErrorLevel.Error DiagnosticMessage.DuplicateKeyName (Range.mk 0 2)]) := by
  constructor
  · rfl
  · rfl

/-- C2 (amended): for every underscore-prefixed name,
`check_duplicate_pattern_variable` returns Ok and leaves the builder
(and its diagnostics) unchanged even when the name is declared;
`check_duplicate_pattern_key` does not skip underscore-prefixed names —
when such a name is already declared in `pattern_hash_keys` it emits
`DuplicateKeyName` and returns an error, and otherwise it declares the
name and returns Ok with no diagnostic. -/
theorem C2_amended_underscore_pattern_checks :
    (∀ (b : Builder) (name : String) (loc : Range), startsWithUnderscore name = true →
        check_duplicate_pattern_variable b name loc = (Except.ok (), b)) ∧
    (∀ (b : Builder) (name : String) (loc : Range), startsWithUnderscore name = true →
        b.pattern_hash_keys.contains name = true →
        check_duplicate_pattern_key b name loc =
          (Except.error (),
           { b with diagnostics := b.diagnostics ++
               [Diagnostic.mk ErrorLevel.Error DiagnosticMessage.DuplicateKeyName loc] })) ∧
    (∀ (b : Builder) (name : String) (loc : Range), startsWithUnderscore name = true →
        b.pattern_hash_keys.contains name = false →
        check_duplicate_pattern_key b name loc =
          (Except.ok (),
           { b with pattern_hash_keys := b.pattern_hash_keys.insert name })) := by
  refine ⟨?_, ?_, ?_⟩
  · intro b name loc h
    simp [check_duplicate_pattern_variable, h]
  · intro b name loc _ hdecl
    have hmem : name ∈ b.pattern_hash_keys := by simpa using hdecl
    simp [check_duplicate_pattern_key, hmem, Builder.error, emitDiagnostic]
  · intro b name loc _ hdecl
    have hmem : name ∉ b.pattern_hash_keys := by simpa using hdecl
    simp [check_duplicate_pattern_key, hmem]

/-- Witness for C2 (amended), at the underscore name `_a` declared and
undeclared. -/
theorem C2_amended_underscore_pattern_checks_witness :
    check_duplicate_pattern_variable
        (Builder.mk (StaticEnvironment.mk [] []) none false false false ["_a"] [] [])
        "_a" (Range.mk 0 2) =
      (Except.ok (),
       Builder.mk (StaticEnvironment.mk [] []) none false false false ["_a"] [] []) ∧
    check_duplicate_pattern_key
        (Builder.mk (StaticEnvironment.mk [] []) none false false false [] ["_a"] [])
        "_a" (Range.mk 0 2) =
      (Except.error (),
       Builder.mk (StaticEnvironment.mk [] []) none false false false [] ["_a"]
         [Diagnostic.mk ErrorLevel.Error DiagnosticMessage.DuplicateKeyName (Range.mk 0 2)]) ∧
    check_duplicate_pattern_key
        (Builder.mk (StaticEnvironment.mk [] []) none false false false [] [] [])
        "_a" (Range.mk 0 2) =
      (Except.ok (),
       Builder.mk (StaticEnvironment.mk [] []) none false false false [] ["_a"] []) := by
  refine ⟨?_, ?_, ?_⟩
  · exact C2_amended_underscore_pattern_checks.1 _ "_a" _ (by decide)
  · have h := C2_amended_underscore_pattern_checks.2.1
      (Builder.mk (StaticEnvironment.mk [] []) none false false false [] ["_a"] [])
      "_a" (Range.mk 0 2) (by decide) (by decide)
    simpa using h
  · have h := C2_amended_underscore_pattern_checks.2.2
      (Builder.mk (StaticEnvironment.mk [] []) none false false false [] [] [])
      "_a" (Range.mk 0 2) (by decide) (by decide)
    simpa using h

/-- C7: `warn_balanced` always returns its token-type argument unchanged,
and it emits the `AmbiguousOperator` warning (a Warning-level diagnostic
at the current token range) if and only if the prior lex state has none of
the bits CLASS, DOT, FNAME, ENDFN, a space was seen, and the lookahead is
not a space. -/
theorem C7_warn_balanced (lx : Lexer) (token_type : Int) (op syn : String)
    (c : Option Nat) (space_seen : Bool) (last_state : Nat) :
    (warn_balanced lx token_type op syn c space_seen last_state).1 = token_type ∧
    ((warn_balanced lx token_type op syn c space_seen last_state).2.diagnostics =
        lx.diagnostics ++
          [Diagnostic.mk ErrorLevel.Warning (DiagnosticMessage.AmbiguousOperator op syn)
            lx.current_range] ↔
      last_state &&& (EXPR_CLASS ||| EXPR_DOT ||| EXPR_FNAME ||| EXPR_ENDFN) = 0 ∧
        space_seen = true ∧ maybe_byte_is_space c = false) ∧
    (¬(last_state &&& (EXPR_CLASS ||| EXPR_DOT ||| EXPR_FNAME ||| EXPR_ENDFN) = 0 ∧
        space_seen = true ∧ maybe_byte_is_space c = false) →
      (warn_balanced lx token_type op syn c space_seen last_state).2 = lx) := by
  unfold warn_balanced Lexer.warn lex_state_is_some emitDiagnostic
  by_cases hbits : last_state &&& (EXPR_CLASS ||| EXPR_DOT ||| EXPR_FNAME ||| EXPR_ENDFN) = 0 <;>
    cases space_seen <;> cases hsp : maybe_byte_is_space c <;>
      simp [hbits, hsp]

/-- C10: on a declared `Lvar` naming the top of the current-arg stack,
`accessible` emits a `CircularArgumentReference` error but still returns
the `Lvar` itself; on any other declared `Lvar` it returns the node with
the builder untouched; an undeclared name becomes a receiverless
zero-argument `Send`. -/
theorem C10_accessible (b : Builder) (name : String) (l : Range) :
    (b.static_env.is_declared name = true → b.current_arg_stack = some name →
      accessible b (Node.Lvar name l) =
        (Node.Lvar name l,
         { b with diagnostics := b.diagnostics ++
             [Diagnostic.mk ErrorLevel.Error
               (DiagnosticMessage.CircularArgumentReference name) l] })) ∧
    (b.static_env.is_declared name = true → b.current_arg_stack ≠ some name →
      accessible b (Node.Lvar name l) = (Node.Lvar name l, b)) ∧
    (b.static_env.is_declared name = false →
      accessible b (Node.Lvar name l) =
        (Node.Send none name [] none (some l) none none none l, b)) := by
  refine ⟨?_, ?_, ?_⟩
  · intro hdecl htop
    simp [accessible, hdecl, htop, Builder.error, emitDiagnostic]
  · intro hdecl htop
    cases hs : b.current_arg_stack with
    | none => simp [accessible, hdecl, hs]
    | some cur =>
      have hne : ¬cur = name := by
        intro h
        exact htop (by simpa [h] using hs)
      simp [accessible, hdecl, hs, hne]
  · intro hdecl
    simp [accessible, hdecl]

/-- Witness for C10 at the three concrete cases: declared name equal to
the current argument, declared name with empty current-arg stack, and an
undeclared name. -/
theorem C10_accessible_witness :
    accessible (Builder.mk (StaticEnvironment.mk ["x"] []) (some "x") false false false [] [] [])
        (Node.Lvar "x" (Range.mk 0 1)) =
      (Node.Lvar "x" (Range.mk 0 1),
       Builder.mk (StaticEnvironment.mk ["x"] []) (some "x") false false false [] []
         [Diagnostic.mk ErrorLevel.Error (DiagnosticMessage.CircularArgumentReference "x")
           (Range.mk 0 1)]) ∧
    accessible (Builder.mk (StaticEnvironment.mk ["x"] []) none false false false [] [] [])
        (Node.Lvar "x" (Range.mk 0 1)) =
      (Node.Lvar "x" (Range.mk 0 1),
       Builder.mk (StaticEnvironment.mk ["x"] []) none false false false [] [] []) ∧
    accessible (Builder.mk (StaticEnvironment.mk [] []) none false false false [] [] [])
        (Node.Lvar "y" (Range.mk 0 1)) =
      (Node.Send none "y" [] none (some (Range.mk 0 1)) none none none (Range.mk 0 1),
       Builder.mk (StaticEnvironment.mk [] []) none false false false [] [] []) := by
  refine ⟨?_, ?_, ?_⟩
  · have h := (C10_accessible
      (Builder.mk (StaticEnvironment.mk ["x"] []) (some "x") false false false [] [] [])
      "x" (Range.mk 0 1)).1 (by decide) rfl
    simpa using h
  · have h := (C10_accessible
      (Builder.mk (StaticEnvironment.mk ["x"] []) none false false false [] [] [])
      "x" (Range.mk 0 1)).2.1 (by decide) (by simp)
    simpa using h
  · have h := (C10_accessible
      (Builder.mk (StaticEnvironment.mk [] []) none false false false [] [] [])
      "y" (Range.mk 0 1)).2.2 (by decide)
    simpa using h

/-- C4: for a token `$<digits>`, `nth_ref` returns an `NthRef` node whose
name is the digit sequence; it additionally emits a Warning-level
`NthRefIsTooBig` diagnostic carrying the digit sequence exactly when the
denoted value exceeds `MAX_NTH_REF = 2 ^ 30 - 1` (values too large for
`usize` fail to parse and warn through the same branch). -/
theorem C4_nth_ref (b : Builder) (tok : Token) (ds : String)
    (hval : value tok = "$" ++ ds)
    (hne : ds.data ≠ []) (hdig : ds.data.all Char.isDigit = true) :
    nth_ref b tok =
      if digitsVal ds.data > MAX_NTH_REF then
        (Node.NthRef ds (tokenLoc tok),
         { b with diagnostics := b.diagnostics ++
             [Diagnostic.mk ErrorLevel.Warning (DiagnosticMessage.NthRefIsTooBig ds)
               (tokenLoc tok)] })
      else (Node.NthRef ds (tokenLoc tok), b) := by
  have hdata : (value tok).data = Char.ofNat 36 :: ds.data := by
    rw [hval]; rfl
  have hmk : String.mk ds.data = ds := String.ext rfl
  have hMAXlt : MAX_NTH_REF < USIZE_MAX := by norm_num [MAX_NTH_REF, USIZE_MAX]
  simp only [nth_ref, parseUsize, hdata, List.drop_one, List.tail_cons, hmk, hne, hdig,
    ne_eq, not_false_iff, true_and, if_true]
  by_cases hle : digitsVal ds.data ≤ USIZE_MAX
  · by_cases hgt : digitsVal ds.data > MAX_NTH_REF
    · simp [hle, hgt, Builder.warn, emitDiagnostic]
    · simp [hle, hgt, Builder.warn, emitDiagnostic]
  · have hgt : digitsVal ds.data > MAX_NTH_REF :=
      lt_trans hMAXlt (lt_of_not_le hle)
    simp [hle, hgt, Builder.warn, emitDiagnostic]

/-- Witness for C4: `$1073741824` (one past `MAX_NTH_REF`) warns and still
builds the node; `$9` does not warn. -/
theorem C4_nth_ref_witness :
    nth_ref (Builder.mk (StaticEnvironment.mk [] []) none false false false [] [] [])
        (Token.mk "$1073741824" (Range.mk 0 11)) =
      (Node.NthRef "1073741824" (Range.mk 0 11),
       Builder.mk (StaticEnvironment.mk [] []) none false false false [] []
         [Diagnostic.mk ErrorLevel.Warning (DiagnosticMessage.NthRefIsTooBig "1073741824")
           (Range.mk 0 11)]) ∧
    nth_ref (Builder.mk (StaticEnvironment.mk [] []) none false false false [] [] [])
        (Token.mk "$9" (Range.mk 0 2)) =
      (Node.NthRef "9" (Range.mk 0 2),
       Builder.mk (StaticEnvironment.mk [] []) none false false false [] [] []) := by
  constructor
  · have h := C4_nth_ref (Builder.mk (StaticEnvironment.mk [] []) none false false false [] [] [])
      (Token.mk "$1073741824" (Range.mk 0 11)) "1073741824" rfl (by decide) (by decide)
    rw [if_pos (by decide)] at h
    simpa using h
  · have h := C4_nth_ref (Builder.mk (StaticEnvironment.mk [] []) none false false false [] [] [])
      (Token.mk "$9" (Range.mk 0 2)) "9" rfl (by decide) (by decide)
    rw [if_neg (by decide)] at h
    simpa using h

/-- C5 counterexample: `assignable` does not map every `Const` to a
`Casgn` — in a context where dynamic constant definition is not allowed
(inside a method body, for example) it emits `DynamicConstantAssignment`
and returns an error instead. -/
theorem C5_const_not_always_casgn :
    assignable (Builder.mk (StaticEnvironment.mk [] []) none false false false [] [] [])
        (Node.Const none "FOO" none (Range.mk 0 3) (Range.mk 0 3)) =
      (Except.error (),
       Builder.mk (StaticEnvironment.mk [] []) none false false false [] []
         [Diagnostic.mk ErrorLevel.Error DiagnosticMessage.DynamicConstantAssignment
           (Range.mk 0 3)]) := by
  rfl

/-- C5 (amended): `assignable` errors with the corresponding diagnostic on
`Self_`, `Nil`, `True`, `False`, `File`, `Line`, `Encoding`, and with
`CantSetVariable` on `BackRef`/`NthRef`; an `Lvar` named `_1`..`_9` is
rejected, any other `Lvar` is declared in `static_env` and becomes
`Lvasgn`; `Ivar`, `Gvar`, `Cvar` map to `Ivasgn`, `Gvasgn`, `Cvasgn`; and
`Const` maps to `Casgn` when the context allows dynamic constant
definition, otherwise it emits `DynamicConstantAssignment` and errors. -/
theorem C5_amended_assignable :
    (∀ (b : Builder) (l : Range), assignable b (Node.Self_ l) =
      (Except.error (), b.error DiagnosticMessage.CantAssignToSelf l)) ∧
    (∀ (b : Builder) (l : Range), assignable b (Node.Nil l) =
      (Except.error (), b.error DiagnosticMessage.CantAssignToNil l)) ∧
    (∀ (b : Builder) (l : Range), assignable b (Node.True l) =
      (Except.error (), b.error DiagnosticMessage.CantAssignToTrue l)) ∧
    (∀ (b : Builder) (l : Range), assignable b (Node.False l) =
      (Except.error (), b.error DiagnosticMessage.CantAssignToFalse l)) ∧
    (∀ (b : Builder) (l : Range), assignable b (Node.File l) =
      (Except.error (), b.error DiagnosticMessage.CantAssignToFile l)) ∧
    (∀ (b : Builder) (l : Range), assignable b (Node.Line l) =
      (Except.error (), b.error DiagnosticMessage.CantAssignToLine l)) ∧
    (∀ (b : Builder) (l : Range), assignable b (Node.Encoding l) =
      (Except.error (), b.error DiagnosticMessage.CantAssignToEncoding l)) ∧
    (∀ (b : Builder) (name : String) (l : Range), assignable b (Node.BackRef name l) =
      (Except.error (), b.error (DiagnosticMessage.CantSetVariable name) l)) ∧
    (∀ (b : Builder) (name : String) (l : Range), assignable b (Node.NthRef name l) =
      (Except.error (), b.error (DiagnosticMessage.CantSetVariable ("$" ++ name)) l)) ∧
    (∀ (b : Builder) (name : String) (l : Range), is_numparam_name name = true →
      (assignable b (Node.Lvar name l)).1 = Except.error ()) ∧
    (∀ (b : Builder) (name : String) (l : Range), is_numparam_name name = false →
      assignable b (Node.Lvar name l) =
        (Except.ok (Node.Lvasgn name none l l none),
         { b with static_env := b.static_env.declare name })) ∧
    (∀ (b : Builder) (name : String) (l : Range), assignable b (Node.Ivar name l) =
      (Except.ok (Node.Ivasgn name none l l none), b)) ∧
    (∀ (b : Builder) (name : String) (l : Range), assignable b (Node.Gvar name l) =
      (Except.ok (Node.Gvasgn name none l l none), b)) ∧
    (∀ (b : Builder) (name : String) (l : Range), assignable b (Node.Cvar name l) =
      (Except.ok (Node.Cvasgn name none l l none), b)) ∧
    (∀ (b : Builder) (scope : Option Node) (name : String) (dcl : Option Range) (nl l : Range),
      b.dynamic_const_definition_allowed = true →
      assignable b (Node.Const scope name dcl nl l) =
        (Except.ok (Node.Casgn scope name none nl dcl l none), b)) ∧
    (∀ (b : Builder) (scope : Option Node) (name : String) (dcl : Option Range) (nl l : Range),
      b.dynamic_const_definition_allowed = false →
      assignable b (Node.Const scope name dcl nl l) =
        (Except.error (), b.error DiagnosticMessage.DynamicConstantAssignment l)) := by
  refine ⟨fun b l => rfl, fun b l => rfl, fun b l => rfl, fun b l => rfl, fun b l => rfl,
    fun b l => rfl, fun b l => rfl, fun b name l => rfl, fun b name l => rfl,
    ?_, ?_, fun b name l => rfl, fun b name l => rfl, fun b name l => rfl, ?_, ?_⟩
  · intro b name l h
    simp only [assignable, check_assignment_to_numparam, check_reserved_for_numparam, h]
    cases hd : b.in_dynamic_block <;> cases hn : b.has_numparams <;> simp
  · intro b name l h
    simp [assignable, check_assignment_to_numparam, check_reserved_for_numparam, h]
  · intro b scope name dcl nl l h
    simp [assignable, h]
  · intro b scope name dcl nl l h
    simp [assignable, h]

/-- Witness for C5 (amended), at the hypothesis-bearing cases: the
numparam name `_1`, the plain name `x`, and a `Const` in an allowing and
in a refusing context. -/
theorem C5_amended_assignable_witness :
    (assignable (Builder.mk (StaticEnvironment.mk [] []) none false false false [] [] [])
        (Node.Lvar "_1" (Range.mk 0 2))).1 = Except.error () ∧
    assignable (Builder.mk (StaticEnvironment.mk [] []) none false false false [] [] [])
        (Node.Lvar "x" (Range.mk 0 1)) =
      (Except.ok (Node.Lvasgn "x" none (Range.mk 0 1) (Range.mk 0 1) none),
       Builder.mk (StaticEnvironment.mk ["x"] []) none false false false [] [] []) ∧
    assignable (Builder.mk (StaticEnvironment.mk [] []) none false true false [] [] [])
        (Node.Const none "FOO" none (Range.mk 0 3) (Range.mk 0 3)) =
      (Except.ok (Node.Casgn none "FOO" none (Range.mk 0 3) none (Range.mk 0 3) none),
       Builder.mk (StaticEnvironment.mk [] []) none false true false [] [] []) ∧
    assignable (Builder.mk (StaticEnvironment.mk [] []) none false false false [] [] [])
        (Node.Const none "FOO" none (Range.mk 0 3) (Range.mk 0 3)) =
      (Except.error (),
       Builder.mk (StaticEnvironment.mk [] []) none false false false [] []
         [Diagnostic.mk ErrorLevel.Error DiagnosticMessage.DynamicConstantAssignment
           (Range.mk 0 3)]) := by
  refine ⟨?_, ?_, ?_, ?_⟩
  · exact C5_amended_assignable.2.2.2.2.2.2.2.2.2.1 _ "_1" _ (by decide)
  · have h := C5_amended_assignable.2.2.2.2.2.2.2.2.2.2.1
      (Builder.mk (StaticEnvironment.mk [] []) none false false false [] [] [])
      "x" (Range.mk 0 1) (by decide)
    simpa using h
  · have h := C5_amended_assignable.2.2.2.2.2.2.2.2.2.2.2.2.2.2.1
      (Builder.mk (StaticEnvironment.mk [] []) none false true false [] [] [])
      none "FOO" none (Range.mk 0 3) (Range.mk 0 3) rfl
    simpa using h
  · have h := C5_amended_assignable.2.2.2.2.2.2.2.2.2.2.2.2.2.2.2
      (Builder.mk (StaticEnvironment.mk [] []) none false false false [] [] [])
      none "FOO" none (Range.mk 0 3) (Range.mk 0 3) rfl
    simpa [Builder.error, emitDiagnostic] using h

/-- Removing a pushed trailing character undoes the push. -/
theorem strPop_concat_eq (s : String) (c : Char) : strPop (String.mk (s.data ++ [c])) = s := by
  cases s with
  | mk l => simp [strPop]

/-- C6: on a pass-through lhs (an assignment variant or a send),
`op_assign` builds `AndAsgn` for the token `&&=`, `OrAsgn` for `||=`, and
otherwise `OpAsgn` carrying the token text without its trailing `=`; an
`Index` lhs is first converted to an `IndexAsgn` with an empty value slot;
a `BackRef` or `NthRef` lhs emits `CantSetVariable` and errors. -/
theorem C6_op_assign :
    (∀ (b : Builder) (lhs : Node) (op_t : Token) (rhs : Node),
      isOpAssignSimpleLhs lhs = true →
      (value op_t = "&&=" →
        op_assign b lhs op_t rhs =
          (Except.ok (Node.AndAsgn lhs rhs (tokenLoc op_t) (join_exprs lhs rhs)), b)) ∧
      (value op_t = "||=" →
        op_assign b lhs op_t rhs =
          (Except.ok (Node.OrAsgn lhs rhs (tokenLoc op_t) (join_exprs lhs rhs)), b)) ∧
      (∀ s : String, value op_t = String.mk (s.data ++ ['=']) → s ≠ "&&" → s ≠ "||" →
        op_assign b lhs op_t rhs =
          (Except.ok (Node.OpAsgn lhs rhs s (tokenLoc op_t) (join_exprs lhs rhs)), b))) ∧
    (∀ (b : Builder) (recv : Node) (indexes : List Node) (bl el ie : Range)
        (op_t : Token) (rhs : Node) (s : String),
      value op_t = String.mk (s.data ++ ['=']) →
      op_assign b (Node.Index recv indexes bl el ie) op_t rhs =
        (Except.ok
          (if s = "&&" then
            Node.AndAsgn (Node.IndexAsgn recv indexes none bl el ie none) rhs
              (tokenLoc op_t) (join_exprs (Node.Index recv indexes bl el ie) rhs)
          else if s = "||" then
            Node.OrAsgn (Node.IndexAsgn recv indexes none bl el ie none) rhs
              (tokenLoc op_t) (join_exprs (Node.Index recv indexes bl el ie) rhs)
          else
            Node.OpAsgn (Node.IndexAsgn recv indexes none bl el ie none) rhs s
              (tokenLoc op_t) (join_exprs (Node.Index recv indexes bl el ie) rhs)), b)) ∧
    (∀ (b : Builder) (name : String) (l : Range) (op_t : Token) (rhs : Node),
      op_assign b (Node.BackRef name l) op_t rhs =
        (Except.error (), b.error (DiagnosticMessage.CantSetVariable name) l)) ∧
    (∀ (b : Builder) (name : String) (l : Range) (op_t : Token) (rhs : Node),
      op_assign b (Node.NthRef name l) op_t rhs =
        (Except.error (), b.error (DiagnosticMessage.CantSetVariable ("$" ++ name)) l)) := by
  have hand : ("&&=" : String) = String.mk (("&&" : String).data ++ ['=']) := rfl
  have hor : ("||=" : String) = String.mk (("||" : String).data ++ ['=']) := rfl
  refine ⟨?_, ?_, fun b name l op_t rhs => rfl, fun b name l op_t rhs => rfl⟩
  · intro b lhs op_t rhs hsimple
    refine ⟨?_, ?_, ?_⟩
    · intro hval
      have hop : strPop (value op_t) = "&&" := by rw [hval, hand, strPop_concat_eq]
      cases lhs <;> simp_all [op_assign, isOpAssignSimpleLhs]
    · intro hval
      have hop : strPop (value op_t) = "||" := by rw [hval, hor, strPop_concat_eq]
      cases lhs <;> simp_all [op_assign, isOpAssignSimpleLhs]
    · intro s hval hs1 hs2
      have hop : strPop (value op_t) = s := by rw [hval, strPop_concat_eq]
      cases lhs <;> simp_all [op_assign, isOpAssignSimpleLhs]
  · intro b recv indexes bl el ie op_t rhs s hval
    have hop : strPop (value op_t) = s := by rw [hval, strPop_concat_eq]
    by_cases h1 : s = "&&"
    · simp [op_assign, hop, h1]
    · by_cases h2 : s = "||"
      · simp [op_assign, hop, h1, h2]
      · simp [op_assign, hop, h1, h2]

/-- Witness for C6: `a &&= nil`, `a += nil`, and `a[] *= nil`. -/
theorem C6_op_assign_witness :
    op_assign (Builder.mk (StaticEnvironment.mk [] []) none false false false [] [] [])
        (Node.Lvasgn "a" none (Range.mk 0 1) (Range.mk 0 1) none)
        (Token.mk "&&=" (Range.mk 2 5)) (Node.Nil (Range.mk 6 9)) =
      (Except.ok (Node.AndAsgn (Node.Lvasgn "a" none (Range.mk 0 1) (Range.mk 0 1) none)
          (Node.Nil (Range.mk 6 9)) (Range.mk 2 5) (Range.mk 0 9)),
       Builder.mk (StaticEnvironment.mk [] []) none false false false [] [] []) ∧
    op_assign (Builder.mk (StaticEnvironment.mk [] []) none false false false [] [] [])
        (Node.Lvasgn "a" none (Range.mk 0 1) (Range.mk 0 1) none)
        (Token.mk "+=" (Range.mk 2 4)) (Node.Nil (Range.mk 5 8)) =
      (Except.ok (Node.OpAsgn (Node.Lvasgn "a" none (Range.mk 0 1) (Range.mk 0 1) none)
          (Node.Nil (Range.mk 5 8)) "+" (Range.mk 2 4) (Range.mk 0 8)),
       Builder.mk (StaticEnvironment.mk [] []) none false false false [] [] []) ∧
    op_assign (Builder.mk (StaticEnvironment.mk [] []) none false false false [] [] [])
        (Node.Index (Node.Lvar "a" (Range.mk 0 1)) [] (Range.mk 1 2) (Range.mk 2 3) (Range.mk 0 3))
        (Token.mk "*=" (Range.mk 4 6)) (Node.Nil (Range.mk 7 10)) =
      (Except.ok (Node.OpAsgn
          (Node.IndexAsgn (Node.Lvar "a" (Range.mk 0 1)) [] none (Range.mk 1 2) (Range.mk 2 3)
            (Range.mk 0 3) none)
          (Node.Nil (Range.mk 7 10)) "*" (Range.mk 4 6) (Range.mk 0 10)),
       Builder.mk (StaticEnvironment.mk [] []) none false false false [] [] []) := by
  refine ⟨?_, ?_, ?_⟩
  · have h := ((C6_op_assign.1 (Builder.mk (StaticEnvironment.mk [] []) none false false false [] [] [])
      (Node.Lvasgn "a" none (Range.mk 0 1) (Range.mk 0 1) none)
      (Token.mk "&&=" (Range.mk 2 5)) (Node.Nil (Range.mk 6 9)) rfl).1) rfl
    simpa [join_exprs, Node.expression, Range.join, tokenLoc, value] using h
  · have h := ((C6_op_assign.1 (Builder.mk (StaticEnvironment.mk [] []) none false false false [] [] [])
      (Node.Lvasgn "a" none (Range.mk 0 1) (Range.mk 0 1) none)
      (Token.mk "+=" (Range.mk 2 4)) (Node.Nil (Range.mk 5 8)) rfl).2.2) "+" rfl
      (by decide) (by decide)
    simpa [join_exprs, Node.expression, Range.join, tokenLoc, value] using h
  · have h := C6_op_assign.2.1 (Builder.mk (StaticEnvironment.mk [] []) none false false false [] [] [])
      (Node.Lvar "a" (Range.mk 0 1)) [] (Range.mk 1 2) (Range.mk 2 3) (Range.mk 0 3)
      (Token.mk "*=" (Range.mk 4 6)) (Node.Nil (Range.mk 7 10)) "*" rfl
    simpa [join_exprs, Node.expression, Range.join, tokenLoc, value] using h

/-- C8: `decode` matches the declared encoding name case-insensitively
(through uppercasing): `ASCII-8BIT` and `BINARY` return the lossy UTF-8
conversion of the input bytes, `UTF-8` and `KOI8-R` run the corresponding
codec (decode failures becoming `EncodingError`), and every other name is
an `UnsupportdEncoding` error carrying the name as given. -/
theorem C8_decode (utf8_decode koi8r_decode : List Nat → Except String String)
    (from_utf8_lossy : List Nat → String) (input : List Nat) (enc : String) :
    ((strToUpper enc = "ASCII-8BIT" ∨ strToUpper enc = "BINARY") →
      decode utf8_decode koi8r_decode from_utf8_lossy input enc =
        Except.ok (from_utf8_lossy input)) ∧
    (strToUpper enc = "UTF-8" →
      decode utf8_decode koi8r_decode from_utf8_lossy input enc =
        (utf8_decode input).mapError InputError.EncodingError) ∧
    (strToUpper enc = "KOI8-R" →
      decode utf8_decode koi8r_decode from_utf8_lossy input enc =
        (koi8r_decode input).mapError InputError.EncodingError) ∧
    (strToUpper enc ≠ "ASCII-8BIT" → strToUpper enc ≠ "BINARY" →
      strToUpper enc ≠ "UTF-8" → strToUpper enc ≠ "KOI8-R" →
      decode utf8_decode koi8r_decode from_utf8_lossy input enc =
        Except.error (InputError.UnsupportdEncoding enc)) := by
  refine ⟨?_, ?_, ?_, ?_⟩
  · intro h
    simp only [decode]
    rw [if_pos h]
  · intro h
    have hne1 : ¬(strToUpper enc = "ASCII-8BIT" ∨ strToUpper enc = "BINARY") := by
      rw [h]; decide
    simp only [decode]
    rw [if_neg hne1, if_pos h]
  · intro h
    have hne1 : ¬(strToUpper enc = "ASCII-8BIT" ∨ strToUpper enc = "BINARY") := by
      rw [h]; decide
    have hne2 : strToUpper enc ≠ "UTF-8" := by rw [h]; decide
    simp only [decode]
    rw [if_neg hne1, if_neg hne2, if_pos h]
  · intro h1 h2 h3 h4
    simp only [decode]
    rw [if_neg (by tauto), if_neg h3, if_neg h4]

/-- Witness for C8: the names `binary`, `utf-8`, `koi8-r` and `EUC-JP`
with trivial codec stand-ins. -/
theorem C8_decode_witness :
    decode (fun _ => Except.ok "u") (fun _ => Except.ok "k") (fun _ => "l") [0] "binary" =
      Except.ok "l" ∧
    decode (fun _ => Except.ok "u") (fun _ => Except.ok "k") (fun _ => "l") [0] "utf-8" =
      Except.ok "u" ∧
    decode (fun _ => Except.ok "u") (fun _ => Except.ok "k") (fun _ => "l") [0] "koi8-r" =
      Except.ok "k" ∧
    decode (fun _ => Except.ok "u") (fun _ => Except.ok "k") (fun _ => "l") [0] "EUC-JP" =
      Except.error (InputError.UnsupportdEncoding "EUC-JP") := by
  refine ⟨?_, ?_, ?_, ?_⟩
  · exact (C8_decode (fun _ => Except.ok "u") (fun _ => Except.ok "k") (fun _ => "l")
      [0] "binary").1 (Or.inr (by decide))
  · exact (C8_decode (fun _ => Except.ok "u") (fun _ => Except.ok "k") (fun _ => "l")
      [0] "utf-8").2.1 (by decide)
  · exact (C8_decode (fun _ => Except.ok "u") (fun _ => Except.ok "k") (fun _ => "l")
      [0] "koi8-r").2.2.1 (by decide)
  · exact (C8_decode (fun _ => Except.ok "u") (fun _ => Except.ok "k") (fun _ => "l")
      [0] "EUC-JP").2.2.2 (by decide) (by decide) (by decide) (by decide)

/-- If every `Str` part is unchanged by `dedent_string` at the given
width, the parts walk of `heredoc_dedent` returns the parts unchanged. -/
theorem dedent_heredoc_parts_fixed (w : Nat) (parts : List Node)
    (hkind : ∀ p ∈ parts, (∃ v bl el pl, p = Node.Str v bl el pl) ∨
      (∃ sts bl el pl, p = Node.Begin sts bl el pl))
    (hded : ∀ v bl el pl, Node.Str v bl el pl ∈ parts → dedent_string v w = v) :
    dedent_heredoc_parts w parts = some parts := by
  induction parts with
  | nil => rfl
  | cons p rest ih =>
    have ih' : dedent_heredoc_parts w rest = some rest :=
      ih (fun q hq => hkind q (List.mem_cons_of_mem _ hq))
        (fun v bl el pl hq => hded v bl el pl (List.mem_cons_of_mem _ hq))
    rcases hkind p (List.mem_cons_self _ _) with ⟨v, bl, el, pl, rfl⟩ | ⟨sts, bl, el, pl, rfl⟩
    · have hd := hded v bl el pl (List.mem_cons_self _ _)
      simp [dedent_heredoc_parts, hd, ih']
    · simp [dedent_heredoc_parts, ih']

/-- C9: `heredoc_dedent` is idempotent on already-dedented content — on a
`Heredoc` or `XHeredoc` whose parts are `Str`/`Begin` nodes such that
`dedent_string` at the (nonnegative) dedent level leaves every `Str` part
unchanged, `heredoc_dedent` returns the node unchanged. -/
theorem C9_heredoc_dedent_idempotent (parts : List Node) (hb he l : Range) (w : Int)
    (hw : 0 ≤ w)
    (hkind : ∀ p ∈ parts, (∃ v bl el pl, p = Node.Str v bl el pl) ∨
      (∃ sts bl el pl, p = Node.Begin sts bl el pl))
    (hded : ∀ v bl el pl, Node.Str v bl el pl ∈ parts → dedent_string v w.toNat = v) :
    heredoc_dedent (Node.Heredoc parts hb he l) w = some (Node.Heredoc parts hb he l) ∧
    heredoc_dedent (Node.XHeredoc parts hb he l) w = some (Node.XHeredoc parts hb he l) := by
  have hfix := dedent_heredoc_parts_fixed w.toNat parts hkind hded
  by_cases h0 : w = 0
  · subst h0
    constructor <;> rfl
  · have hneg : ¬w < 0 := by omega
    constructor <;> simp [heredoc_dedent, h0, hneg, hfix]

/-- Witness for C9: a heredoc with one dedented `Str` part and one
`Begin` part, at dedent level 2. -/
theorem C9_heredoc_dedent_idempotent_witness :
    heredoc_dedent
        (Node.Heredoc [Node.Str [97] none none (Range.mk 0 1),
          Node.Begin [] none none (Range.mk 1 2)] (Range.mk 0 2) (Range.mk 2 3) (Range.mk 0 3)) 2 =
      some (Node.Heredoc [Node.Str [97] none none (Range.mk 0 1),
        Node.Begin [] none none (Range.mk 1 2)] (Range.mk 0 2) (Range.mk 2 3) (Range.mk 0 3)) ∧
    heredoc_dedent
        (Node.XHeredoc [Node.Str [97] none none (Range.mk 0 1),
          Node.Begin [] none none (Range.mk 1 2)] (Range.mk 0 2) (Range.mk 2 3) (Range.mk 0 3)) 2 =
      some (Node.XHeredoc [Node.Str [97] none none (Range.mk 0 1),
        Node.Begin [] none none (Range.mk 1 2)] (Range.mk 0 2) (Range.mk 2 3) (Range.mk 0 3)) := by
  refine C9_heredoc_dedent_idempotent _ _ _ _ 2 (by decide) ?_ ?_
  · intro p hp
    rcases List.mem_cons.mp hp with rfl | hp'
    · exact Or.inl ⟨[97], none, none, Range.mk 0 1, rfl⟩
    · rcases List.mem_singleton.mp hp' with rfl
      exact Or.inr ⟨[], none, none, Range.mk 1 2, rfl⟩
  · intro v bl el pl hp
    rcases List.mem_cons.mp hp with heq | hp'
    · rw [Node.Str.injEq] at heq
      obtain ⟨rfl, rfl, rfl, rfl⟩ := heq
      decide
    · rcases List.mem_singleton.mp hp' with heq
      exact absurd heq (by simp)

theorem check_duplicate_arg_spec (arg : ArgNode) (map : List (String × ArgNode))
    (diags : List Diagnostic) (seen : List String)
    (h1 : ∀ n : String, (map.lookup n).isSome = true ↔ n ∈ seen)
    (h2 : ∀ (n : String) (a : ArgNode), map.lookup n = some a → arg_name a = some n) :
    (check_duplicate_arg arg map diags).2 = diags ++ (specArgStep arg seen).1 ∧
    (∀ n : String,
      (((check_duplicate_arg arg map diags).1).lookup n).isSome = true ↔
        n ∈ (specArgStep arg seen).2) ∧
    (∀ (n : String) (a : ArgNode),
      ((check_duplicate_arg arg map diags).1).lookup n = some a → arg_name a = some n) := by
  cases harg : arg_name arg with
  | none =>
    refine ⟨by simp [check_duplicate_arg, specArgStep, harg], ?_, ?_⟩
    · intro k
      simpa [check_duplicate_arg, specArgStep, harg] using h1 k
    · intro k a
      simpa [check_duplicate_arg, specArgStep, harg] using h2 k a
  | some n =>
    cases hlook : map.lookup n with
    | none =>
      have hns : n ∉ seen := by
        intro hmem
        have hsome := (h1 n).mpr hmem
        rw [hlook] at hsome
        simp at hsome
      have hany : seen.any (fun m => arg_name_collides n m) = false := by
        rw [List.any_eq_false]
        intro m hm
        simp only [arg_name_collides, Bool.and_eq_true, beq_iff_eq, not_and]
        intro _ heq
        exact absurd hm (heq ▸ hns)
      refine ⟨?_, ?_, ?_⟩
      · simp [check_duplicate_arg, specArgStep, harg, hlook, hany, hns]
      · intro k
        by_cases hk : k = n
        · subst hk
          simp [check_duplicate_arg, specArgStep, harg, hlook, hany, hns, List.lookup]
        · have hbk : (k == n) = false := beq_eq_false_iff_ne.mpr hk
          simp [check_duplicate_arg, specArgStep, harg, hlook, hany, hns, List.lookup,
            hbk, h1 k, hk]
      · intro k a
        by_cases hk : k = n
        · subst hk
          simp only [check_duplicate_arg, harg, hlook, List.lookup, beq_self_eq_true]
          intro h
          obtain rfl : arg = a := by simpa using h
          exact harg
        · have hbk : (k == n) = false := beq_eq_false_iff_ne.mpr hk
          simp only [check_duplicate_arg, harg, hlook, List.lookup, hbk]
          exact h2 k a
    | some that_arg =>
      have hthat : arg_name that_arg = some n := h2 n that_arg hlook
      have hnseen : n ∈ seen := (h1 n).mp (by rw [hlook]; rfl)
      by_cases hc : arg_name_collides n n = true
      · have hany : seen.any (fun m => arg_name_collides n m) = true := by
          rw [List.any_eq_true]
          exact ⟨n, hnseen, hc⟩
        refine ⟨?_, ?_, ?_⟩
        · simp [check_duplicate_arg, specArgStep, harg, hlook, hthat, hc, hany,
            emitDiagnostic]
        · intro k
          simpa [check_duplicate_arg, specArgStep, harg, hlook, hthat, hc, hany]
            using h1 k
        · intro k a
          simpa [check_duplicate_arg, specArgStep, harg, hlook, hthat, hc, hany]
            using h2 k a
      · have hcb : arg_name_collides n n = false := by
          simpa using hc
        have hany : seen.any (fun m => arg_name_collides n m) = false := by
          rw [List.any_eq_false]
          intro m hm
          by_cases hnm : n = m
          · subst hnm
            simpa using hcb
          · simp only [arg_name_collides, Bool.and_eq_true, beq_iff_eq, not_and]
            intro _ heq
            exact absurd heq hnm
        refine ⟨?_, ?_, ?_⟩
        · simp [check_duplicate_arg, specArgStep, harg, hlook, hthat, hcb, hany, hnseen]
        · intro k
          simpa [check_duplicate_arg, specArgStep, harg, hlook, hthat, hcb, hany, hnseen]
            using h1 k
        · intro k a
          simpa [check_duplicate_arg, specArgStep, harg, hlook, hthat, hcb, hany, hnseen]
            using h2 k a

theorem check_duplicate_args_spec (args : List ArgNode) (map : List (String × ArgNode))
    (diags : List Diagnostic) :
    ∀ seen : List String,
    (∀ n : String, (map.lookup n).isSome = true ↔ n ∈ seen) →
    (∀ (n : String) (a : ArgNode), map.lookup n = some a → arg_name a = some n) →
    (check_duplicate_args args map diags).2 = diags ++ (specDupWalk args seen).1 ∧
    (∀ n : String,
      (((check_duplicate_args args map diags).1).lookup n).isSome = true ↔
        n ∈ (specDupWalk args seen).2) ∧
    (∀ (n : String) (a : ArgNode),
      ((check_duplicate_args args map diags).1).lookup n = some a → arg_name a = some n) := by
  induction args, map, diags using check_duplicate_args.induct with
  | case1 map diags =>
    intro seen h1 h2
    refine ⟨by simp [check_duplicate_args, specDupWalk], ?_, ?_⟩
    · intro k
      simpa [check_duplicate_args, specDupWalk] using h1 k
    · intro k a
      simpa [check_duplicate_args, specDupWalk] using h2 k a
  | case2 map diags arg rest step ihinner ihrest =>
    intro seen h1 h2
    cases arg
    case Mlhs items bl el l =>
      obtain ⟨hd, hm1, hm2⟩ := ihinner seen h1 h2
      obtain ⟨hd', hm1', hm2'⟩ := ihrest _ hm1 hm2
      refine ⟨?_, ?_, ?_⟩
      · simp only [check_duplicate_args, specDupWalk]
        rw [hd', hd]
        simp
      · intro k
        simpa [check_duplicate_args, specDupWalk] using hm1' k
      · intro k a
        simpa [check_duplicate_args, specDupWalk] using hm2' k a
    case Procarg0 pargs bl el l =>
      obtain ⟨hd, hm1, hm2⟩ := ihinner seen h1 h2
      obtain ⟨hd', hm1', hm2'⟩ := ihrest _ hm1 hm2
      refine ⟨?_, ?_, ?_⟩
      · simp only [check_duplicate_args, specDupWalk]
        rw [hd', hd]
        simp
      · intro k
        simpa [check_duplicate_args, specDupWalk] using hm1' k
      · intro k a
        simpa [check_duplicate_args, specDupWalk] using hm2' k a
    case ForwardArg l =>
      obtain ⟨hd', hm1', hm2'⟩ := ihrest seen h1 h2
      refine ⟨?_, ?_, ?_⟩
      · simp only [check_duplicate_args, specDupWalk]
        rw [hd']
        simp [specArgStep, arg_name]
      · intro k
        simpa [check_duplicate_args, specDupWalk, specArgStep, arg_name] using hm1' k
      · intro k a
        simpa [check_duplicate_args, specDupWalk, specArgStep, arg_name] using hm2' k a
    case Kwnilarg l =>
      obtain ⟨hd', hm1', hm2'⟩ := ihrest seen h1 h2
      refine ⟨?_, ?_, ?_⟩
      · simp only [check_duplicate_args, specDupWalk]
        rw [hd']
        simp [specArgStep, arg_name]
      · intro k
        simpa [check_duplicate_args, specDupWalk, specArgStep, arg_name] using hm1' k
      · intro k a
        simpa [check_duplicate_args, specDupWalk, specArgStep, arg_name] using hm2' k a
    all_goals {
      obtain ⟨hd, hm1, hm2⟩ := check_duplicate_arg_spec _ map diags seen h1 h2
      obtain ⟨hd', hm1', hm2'⟩ := ihrest _ hm1 hm2
      refine ⟨?_, ?_, ?_⟩
      · simp only [check_duplicate_args, specDupWalk]
        rw [hd', hd]
        simp
      · intro k
        simpa [check_duplicate_args, specDupWalk] using hm1' k
      · intro k a
        simpa [check_duplicate_args, specDupWalk] using hm2' k a
    }

/-- C3: `arg_name_collides` holds exactly on string-equal names whose
first character is not an underscore, and the duplicate-argument walk
(`check_duplicate_args`, descending through `Mlhs` and `Procarg0`) emits
`DuplicatedArgumentName` exactly at the named arguments whose name
repeats an earlier one under `arg_name_collides` — its diagnostics
coincide with the claim's reading `specDupWalk`; hence duplicate
underscore-prefixed parameters are accepted and duplicate non-underscore
parameters are errors. -/
theorem C3_check_duplicate_args :
    (∀ this_name that_name : String,
      arg_name_collides this_name that_name = true ↔
        (this_name.data.take 1 ≠ ['_'] ∧ this_name = that_name)) ∧
    (∀ args : List ArgNode,
      (check_duplicate_args args [] []).2 = (specDupWalk args []).1) := by
  constructor
  · intro this_name that_name
    simp [arg_name_collides]
  · intro args
    have h := check_duplicate_args_spec args [] [] [] (by simp) (by simp)
    simpa using h.1

/-- Witness for C7: with prior state `EXPR_BEG`, a seen space and a
non-space lookahead the warning is emitted; with prior state `EXPR_CLASS`
the lexer is left untouched. -/
theorem C7_warn_balanced_witness :
    (warn_balanced (Lexer.mk [] (Range.mk 0 1)) 5 "**" "argument prefix" (some 97) true
        EXPR_BEG).1 = 5 ∧
    (warn_balanced (Lexer.mk [] (Range.mk 0 1)) 5 "**" "argument prefix" (some 97) true
        EXPR_BEG).2.diagnostics =
      [Diagnostic.mk ErrorLevel.Warning
        (DiagnosticMessage.AmbiguousOperator "**" "argument prefix") (Range.mk 0 1)] ∧
    (warn_balanced (Lexer.mk [] (Range.mk 0 1)) 5 "**" "argument prefix" (some 97) true
        EXPR_CLASS).2 = Lexer.mk [] (Range.mk 0 1) := by
  refine ⟨(C7_warn_balanced (Lexer.mk [] (Range.mk 0 1)) 5 "**" "argument prefix" (some 97)
      true EXPR_BEG).1, ?_, ?_⟩
  · exact (C7_warn_balanced (Lexer.mk [] (Range.mk 0 1)) 5 "**" "argument prefix" (some 97)
      true EXPR_BEG).2.1.mpr ⟨by decide, rfl, by decide⟩
  · exact (C7_warn_balanced (Lexer.mk [] (Range.mk 0 1)) 5 "**" "argument prefix" (some 97)
      true EXPR_CLASS).2.2 (by decide)
